import Mathlib

/-!
Shallow embedding of the distribution/mixture/condition fitting core of the
ergo repository: scale-normalized logistic components, mixtures with
bracketed-bisection quantile lookup, flat-parameter logistic-mixture
log-density kernels, and condition-loss aggregation.

Exact rational arithmetic stands in for floating point throughout the
control-flow-level embeddings; the transcendental log-density kernels are
embedded over the reals.
-/

namespace Ergo

/-- Modelled from the spec: ergo/scale.py is not under src/. The spec defines
Scale as real bounds (low, high) with width = high - low (invariant
width > 0), normalize_point(x) = (x - low) / width and its affine inverse
denormalize_point. -/
structure Scale where
  low : ℚ
  high : ℚ
  deriving DecidableEq

/-- Modelled from the spec: width = high - low. -/
def Scale.width (sc : Scale) : ℚ := sc.high - sc.low

/-- Modelled from the spec: normalize_point(x) = (x - low) / width. -/
def Scale.normalize_point (sc : Scale) (x : ℚ) : ℚ := (x - sc.low) / sc.width

/-- Modelled from the spec: denormalize_point is the affine inverse of
normalize_point. -/
def Scale.denormalize_point (sc : Scale) (x : ℚ) : ℚ := x * sc.width + sc.low

/-- Error message raised by Logistic.__init__ when neither a Scale nor the
normalized flag is supplied (src/ergo/distributions/logistic.py line 46). -/
def scaleRequiredMsg : String := "Either a Scale or normalized parameters are required"

/-- Error message raised by Mixture.__post_init__ on a component whose scale
differs from the mixture scale (src/ergo/distributions/mixture.py lines 22-24). -/
def mixtureScaleMsg : String := "Component distributions must be on the same scale as Mixture"

/-- Error message of scipy.optimize.bisect when the bracket endpoints do not
have opposite signs. -/
def signErrorMsg : String := "f(a) and f(b) must have different signs"

/-- Error message standing for numpy's ValueError on reducing (np.min) an
empty array, raised by Mixture.ppf on a mixture with zero components. -/
def emptyReduceMsg : String := "zero-size array reduction"

/-- Error message standing for the NotImplementedError raised by
Mixture.logpdf (src/ergo/distributions/mixture.py lines 29-31). -/
def notImplementedMsg : String := "NotImplementedError"

/-- The evaluation-time spread floor 0.0000001 used by Logistic.__init__
(src/ergo/distributions/logistic.py lines 37 and 49). -/
def logisticEps : ℚ := 1 / 10000000

/-- A logistic component as stored after Logistic.__init__
(src/ergo/distributions/logistic.py): normalized loc and s, the component
Scale, and the cached true-scale parameters. true_loc and true_s are Option
because the normalized-mode branch without a Scale never assigns them. -/
structure Logistic where
  loc : ℚ
  s : ℚ
  scale : Scale
  true_loc : Option ℚ
  true_s : Option ℚ
  deriving DecidableEq

/-- Embedding of Logistic.__init__ (src/ergo/distributions/logistic.py lines
26-53). In normalized mode the spread is floored at logisticEps and, when a
Scale is supplied, true_s = s * scale.width and true_loc =
scale.denormalize_point(loc) are cached; without a Scale the scale defaults
to Scale(0, 1) and no true-scale values are cached. In true-scale mode
(normalized = false) a Scale is required (ValueError otherwise), the stored
spread is max(s, eps) / scale.width, and the raw inputs are cached as
true_loc and true_s. -/
def Logistic.init (loc s : ℚ) (scale : Option Scale) (normalized : Bool) :
    Except String Logistic :=
  if normalized then
    match scale with
    | some sc =>
        .ok ⟨loc, max s logisticEps, sc, some (sc.denormalize_point loc),
             some (max s logisticEps * sc.width)⟩
    | none => .ok ⟨loc, max s logisticEps, ⟨0, 1⟩, none, none⟩
  else
    match scale with
    | none => .error scaleRequiredMsg
    | some sc =>
        .ok ⟨sc.normalize_point loc, max s logisticEps / sc.width, sc,
             some loc, some s⟩

/-- An abstract mixture component as consumed by Mixture
(src/ergo/distributions/mixture.py): Mixture only uses a component through
its cdf, ppf and (possibly absent) scale attribute, so a component is
embedded as those three data. -/
structure Dist where
  cdf : ℚ → ℚ
  ppf : ℚ → ℚ
  scale : Option Scale

/-- The Mixture dataclass (src/ergo/distributions/mixture.py lines 13-17). -/
structure Mixture where
  components : List Dist
  probs : List ℚ
  scale : Scale

/-- Embedding of Mixture.__post_init__ (src/ergo/distributions/mixture.py
lines 19-24): constructing a Mixture raises when some component has a
non-None scale different from the mixture scale; otherwise the dataclass is
returned as built. -/
def mkMixture (components : List Dist) (probs : List ℚ) (scale : Scale) :
    Except String Mixture :=
  if ∀ c ∈ components, c.scale = none ∨ c.scale = some scale
  then .ok ⟨components, probs, scale⟩
  else .error mixtureScaleMsg

/-- Embedding of Mixture.cdf (src/ergo/distributions/mixture.py lines 33-35):
the weighted sum of component cdfs. -/
def Mixture.cdf (m : Mixture) (x : ℚ) : ℚ :=
  ((m.components.zip m.probs).map (fun cp => cp.1.cdf x * cp.2)).sum

/-- Embedding of Mixture.logpdf (src/ergo/distributions/mixture.py lines
29-31): the method body is raise NotImplementedError, unconditionally. -/
def Mixture.logpdf (_ : Mixture) (_ : ℚ) : Except String ℚ :=
  .error notImplementedMsg

/-- Minimum of a list of rationals; the empty case is never reached where the
embedding uses it (np.min raises on an empty array, which Mixture.ppf models
separately as its empty-components error branch). -/
def listMin : List ℚ → ℚ
  | [] => 0
  | x :: xs => xs.foldl min x

/-- Maximum of a list of rationals; see listMin for the empty case. -/
def listMax : List ℚ → ℚ
  | [] => 0
  | x :: xs => xs.foldl max x

/-- Bisection iteration of scipy.optimize.bisect: repeatedly halve the
bracket, keeping the half across which the sign changes, and return the final
midpoint. -/
def bisectIter (f : ℚ → ℚ) : ℕ → ℚ → ℚ → ℚ
  | 0, a, b => (a + b) / 2
  | n + 1, a, b =>
      let m := (a + b) / 2
      if f a * f m ≤ 0 then bisectIter f n a m else bisectIter f n m b

/-- Model of scipy.optimize.bisect(f, a, b, maxiter): raises ValueError when
f(a) and f(b) have the same strict sign (no sign change across the bracket),
otherwise runs bisection for maxiter iterations. -/
def bisect (f : ℚ → ℚ) (a b : ℚ) (maxiter : ℕ) : Except String ℚ :=
  if 0 < f a * f b then .error signErrorMsg
  else .ok (bisectIter f maxiter a b)

/-- The initial bisection bracket of Mixture.ppf (src/ergo/distributions/
mixture.py lines 52-59): component ppfs give cmin and cmax, widened by
abs(cmin / 100) below and abs(cmax / 100) above. -/
def Mixture.ppfBracket (m : Mixture) (q : ℚ) : ℚ × ℚ :=
  let ppfs := m.components.map (fun c => c.ppf q)
  let cmin := listMin ppfs
  let cmax := listMax ppfs
  (cmin - |cmin / 100|, cmax + |cmax / 100|)

/-- Embedding of Mixture.ppf (src/ergo/distributions/mixture.py lines 37-68):
with a single component, delegate to that component's ppf; with none, np.min
of the empty ppfs list raises; otherwise bisect cdf(x) - q over the widened
component-quantile bracket and, if that raises ValueError for lack of a sign
change, retry over the scale's (low, high) bounds. A failure of the second
bisection is not caught and propagates. -/
def Mixture.ppf (m : Mixture) (q : ℚ) : Except String ℚ :=
  match m.components with
  | [] => .error emptyReduceMsg
  | [c] => .ok (c.ppf q)
  | _ :: _ :: _ =>
      let ab := m.ppfBracket q
      match bisect (fun x => m.cdf x - q) ab.1 ab.2 1000 with
      | .ok r => .ok r
      | .error _ => bisect (fun x => m.cdf x - q) m.scale.low m.scale.high 1000

/-- Modelled from the spec: histogram.py (HistogramDist) is not under src/.
The spec describes the reference histogram distribution as determined by its
stored log-probabilities, with a traceable flag used only for tracing; the
structure keeps exactly that state, matching its use in
CrossEntropyCondition (src/ergo/conditions/crossentropy.py). -/
structure HistogramDist where
  logps : List ℚ
  traceable : Bool

/-- The CrossEntropyCondition state (src/ergo/conditions/crossentropy.py
lines 12-18): a reference histogram and a weight. -/
structure CrossEntropyCondition where
  p_dist : HistogramDist
  weight : ℚ

/-- Modelled from the spec: HistogramDist.cross_entropy (histogram.py) is not
under src/, so it is abstracted as an arbitrary function ce of the histogram
state it can see, namely the stored logps, and the scored distribution
(represented by its logpdf). CrossEntropyCondition.loss
(src/ergo/conditions/crossentropy.py lines 20-21) is then
weight * p_dist.cross_entropy(q_dist). -/
def CrossEntropyCondition.loss (ce : List ℚ → (ℚ → ℚ) → ℚ)
    (c : CrossEntropyCondition) (q : ℚ → ℚ) : ℚ :=
  c.weight * ce c.p_dist.logps q

/-- Embedding of CrossEntropyCondition.destructure (src/ergo/conditions/
crossentropy.py lines 23-24): the flat parameter tuple
(np.array(p_dist.logps), weight). The class tag of the Python pair is
implicit in the Lean type. -/
def CrossEntropyCondition.destructure (c : CrossEntropyCondition) :
    List ℚ × ℚ :=
  (c.p_dist.logps, c.weight)

/-- Embedding of CrossEntropyCondition.structure (src/ergo/conditions/
crossentropy.py lines 26-28): rebuild from the flat tuple with
HistogramDist(params[0], traceable=True). -/
def CrossEntropyCondition.structure' (p : List ℚ × ℚ) : CrossEntropyCondition :=
  ⟨⟨p.1, true⟩, p.2⟩

/-- The PartialCrossEntropyCondition state (src/ergo/conditions/
crossentropy.py lines 34-47): partial sample points xs, probabilities ps and
a weight. -/
structure PartialCrossEntropyCondition where
  xs : List ℚ
  ps : List ℚ
  weight : ℚ
  deriving DecidableEq

/-- Dot product of two rational vectors (np.dot on equal-length lists). -/
def dotList (a b : List ℚ) : ℚ :=
  ((a.zip b).map (fun p => p.1 * p.2)).sum

/-- Embedding of PartialCrossEntropyCondition.loss (src/ergo/conditions/
crossentropy.py lines 49-52): q_logps = vmap(q_dist.logpdf)(xs),
cross_entropy = -dot(ps, q_logps), result weight * cross_entropy. The scored
distribution is represented by its logpdf function. -/
def PartialCrossEntropyCondition.loss (c : PartialCrossEntropyCondition)
    (qlogpdf : ℚ → ℚ) : ℚ :=
  c.weight * (-(dotList c.ps (c.xs.map qlogpdf)))

/-- Embedding of PartialCrossEntropyCondition.destructure
(src/ergo/conditions/crossentropy.py lines 54-55): the flat tuple
(xs, ps, weight). -/
def PartialCrossEntropyCondition.destructure
    (c : PartialCrossEntropyCondition) : List ℚ × List ℚ × ℚ :=
  (c.xs, c.ps, c.weight)

/-- Embedding of PartialCrossEntropyCondition.structure
(src/ergo/conditions/crossentropy.py lines 57-59): rebuild from the flat
tuple componentwise. -/
def PartialCrossEntropyCondition.structure' (p : List ℚ × List ℚ × ℚ) :
    PartialCrossEntropyCondition :=
  ⟨p.1, p.2.1, p.2.2⟩

/-- One (condition class, condition param) pair as consumed by the loss
aggregators of src/ergo/static.py: a condition type, a parameter type, the
classmethod structure rebuilding a condition from a parameter, the loss
method, and the flat parameter itself. Bundling the types keeps the list of
conditions heterogeneous, as in the Python zip over cond_classes and
cond_params. -/
structure CondItem (D : Type) where
  Cty : Type
  Pty : Type
  struct : Pty → Cty
  loss : Cty → D → ℚ
  param : Pty

/-- Embedding of jitted_condition_loss (src/ergo/static.py lines 10-20): the
distribution is structured once via dist_class.from_params(dist_params) (the
fromParams argument, with traceable left at its default false), each
condition is structured from its flat parameter and its loss on the
distribution accumulated, and the total is scaled by 100. The trace-time
print is a side effect with no value and is omitted. -/
def jitted_condition_loss {D : Type} (fromParams : List ℚ → Bool → D)
    (dist_params : List ℚ) (conds : List (CondItem D)) : ℚ :=
  let dist := fromParams dist_params false
  (conds.foldl (fun acc c => acc + c.loss (c.struct c.param) dist) 0) * 100

/-- Embedding of single_condition_loss (src/ergo/static.py lines 49-57): the
distribution is structured via from_params(dist_params, traceable=True), the
single condition is structured from its flat parameter, and its loss on the
distribution is scaled by 100. -/
def single_condition_loss {D : Type} (fromParams : List ℚ → Bool → D)
    (dist_params : List ℚ) (c : CondItem D) : ℚ :=
  c.loss (c.struct c.param) (fromParams dist_params true) * 100

/-- Embedding of condition_loss (src/ergo/static.py lines 31-37): the sum of
single_condition_loss over the condition list. -/
def condition_loss {D : Type} (fromParams : List ℚ → Bool → D)
    (dist_params : List ℚ) (conds : List (CondItem D)) : ℚ :=
  conds.foldl (fun acc c => acc + single_condition_loss fromParams dist_params c) 0

/-- The value both loss paths are claimed to compute: 100 times the sum over
conditions of condition.loss(dist) for the distribution structured from the
flat parameters. Written from the claim, to be compared with the two source
paths. -/
def total_condition_loss_spec {D : Type} (fromParams : List ℚ → Bool → D)
    (dist_params : List ℚ) (conds : List (CondItem D)) : ℚ :=
  100 * (conds.map (fun c => c.loss (c.struct c.param) (fromParams dist_params false))).sum

/-- The TruncatedLogisticMixture state used by pdf1
(src/ergo/distributions/logistic_mixture.py lines 63-75): the truncation
bounds together with the parent mixture's cdf and pdf1 methods. The parent
LogisticMixture inherits cdf and pdf1 from LSMixture, which is not under
src/, so those two methods are abstracted as function-valued fields. -/
structure TruncatedLogisticMixture where
  baseCdf : ℚ → ℚ
  basePdf1 : ℚ → ℚ
  floor : ℚ
  ceiling : ℚ

/-- Embedding of TruncatedLogisticMixture.pdf1 (src/ergo/distributions/
logistic_mixture.py lines 68-75): p_below = super().cdf(floor), p_above =
1 - super().cdf(ceiling), p_inside = 1 - (p_below + p_above), p_at_x =
super().pdf1(x) * (1 / p_inside), returned through the nested np.where that
zeroes x < floor and x > ceiling. -/
def TruncatedLogisticMixture.pdf1 (m : TruncatedLogisticMixture) (x : ℚ) : ℚ :=
  let p_below := m.baseCdf m.floor
  let p_above := 1 - m.baseCdf m.ceiling
  let p_inside := 1 - (p_below + p_above)
  let p_at_x := m.basePdf1 x * (1 / p_inside)
  if x < m.floor then 0 else if m.ceiling < x then 0 else p_at_x

/-- Meaning of the external call scipy.stats.logistic.logpdf(y)
(src/ergo/static.py line 94): the log of the standard logistic density
exp(-y) / (1 + exp(-y))^2. -/
noncomputable def scipy_logistic_logpdf (y : ℝ) : ℝ :=
  Real.log (Real.exp (-y) / (1 + Real.exp (-y)) ^ 2)

/-- Embedding of logistic_logpdf (src/ergo/static.py lines 90-94):
standardize y = (x - loc) / scale, then scipy.stats.logistic.logpdf(y) -
log(scale). -/
noncomputable def logistic_logpdf (x loc scale : ℝ) : ℝ :=
  scipy_logistic_logpdf ((x - loc) / scale) - Real.log scale

/-- Meaning of scipy.special.logsumexp on a vector: log of the sum of
exponentials. -/
noncomputable def logsumexp (xs : List ℝ) : ℝ :=
  Real.log (xs.map Real.exp).sum

/-- The reshape((-1, 3)) of a flat parameter vector into rows
(loc, s, prob): consecutive triples. -/
def chunk3 : List ℝ → List (ℝ × ℝ × ℝ)
  | a :: b :: c :: rest => (a, b, c) :: chunk3 rest
  | _ => []

/-- Embedding of logistic_mixture_logpdf1 (src/ergo/static.py lines 105-115):
reshape params into rows, take the log of the third column, and logsumexp
the per-component scores logistic_logpdf(datum, loc, max(s, 0.01)) + weight
over the zip of rows with their log-probabilities. -/
noncomputable def logistic_mixture_logpdf1 (params : List ℝ) (datum : ℝ) : ℝ :=
  let structured_params := chunk3 params
  let logprobs := structured_params.map (fun p => Real.log p.2.2)
  let component_scores := List.zipWith
    (fun p w => logistic_logpdf datum p.1 (max p.2.1 0.01) + w)
    structured_params logprobs
  logsumexp component_scores

/-- Embedding of logistic_mixture_logpdf (src/ergo/static.py lines 97-102):
a size-one data array is scored directly by logistic_mixture_logpdf1,
otherwise the per-datum scores are vmapped and summed. -/
noncomputable def logistic_mixture_logpdf (params : List ℝ) (data : List ℝ) : ℝ :=
  if data.length = 1 then logistic_mixture_logpdf1 params data.headI
  else (data.map (logistic_mixture_logpdf1 params)).sum

/-- The value the claim states for the batch kernel: the sum over data
points of the logsumexp over components of the floored-spread component
log-density plus log-probability. Written from the claim, to be compared
with the source kernels. -/
noncomputable def mixture_logpdf_spec (params : List ℝ) (data : List ℝ) : ℝ :=
  (data.map (fun d => logsumexp ((chunk3 params).map
    (fun p => logistic_logpdf d p.1 (max p.2.1 0.01) + Real.log p.2.2)))).sum

/-- A degenerate component whose cdf is constantly 1 (a point mass below the
whole support) and whose ppf is constantly 0, on the mixture's own scale;
used to drive both bisection brackets of Mixture.ppf into the no-sign-change
failure. -/
def distOne : Dist := ⟨fun _ => 1, fun _ => 0, some ⟨0, 1⟩⟩

/-- A two-component mixture of degenerate components on Scale(0, 1): the
root function cdf(x) - q is the positive constant 1 - q, so neither bisection
bracket has a sign change. -/
def mixDegenerate : Mixture := ⟨[distOne, distOne], [1/2, 1/2], ⟨0, 1⟩⟩

/-- A one-component mixture used to evaluate Mixture.logpdf concretely. -/
def mixSimple : Mixture := ⟨[distOne], [1], ⟨0, 1⟩⟩

/-- A component whose scale attribute is None. -/
def distNoneScale : Dist := ⟨fun _ => 0, fun _ => 0, none⟩

/-- A component on Scale(2, 3), mismatching Scale(0, 1). -/
def distBadScale : Dist := ⟨fun _ => 0, fun _ => 0, some ⟨2, 3⟩⟩

/-- The Logistic produced by Logistic.init 0 0 (Scale 0 1) in true-scale
mode: the stored spread is floored to logisticEps but the cached true_s
keeps the raw input 0. -/
def logC6 : Logistic := ⟨0, 1 / 10000000, ⟨0, 1⟩, some 0, some 0⟩

/-- Concrete distribution structurer for the condition-loss witness: the
distribution is the sum of the flat parameters and the traceable flag is
ignored. -/
def fpC5 : List ℚ → Bool → ℚ := fun p _ => p.sum

/-- Concrete condition item for the condition-loss witness: the parameter 2
structures to itself and the loss is parameter times distribution. -/
def condC5 : CondItem ℚ := ⟨ℚ, ℚ, id, fun c d => c * d, 2⟩

/-- Concrete truncated mixture on truncation bounds (0, 1) whose parent cdf
is the identity and whose parent pdf1 is constantly 2. -/
def truncC10 : TruncatedLogisticMixture := ⟨fun x => x, fun _ => 2, 0, 1⟩

/-- Unfolding of Mixture.ppf on a mixture with at least two components: the
single-component delegation is skipped and the bisection chain runs. -/
lemma mixture_ppf_two_eq (c1 c2 : Dist) (rest : List Dist) (probs : List ℚ)
    (sc : Scale) (q : ℚ) :
    Mixture.ppf ⟨c1 :: c2 :: rest, probs, sc⟩ q =
      match bisect (fun x => Mixture.cdf ⟨c1 :: c2 :: rest, probs, sc⟩ x - q)
          (Mixture.ppfBracket ⟨c1 :: c2 :: rest, probs, sc⟩ q).1
          (Mixture.ppfBracket ⟨c1 :: c2 :: rest, probs, sc⟩ q).2 1000 with
      | .ok r => .ok r
      | .error _ =>
          bisect (fun x => Mixture.cdf ⟨c1 :: c2 :: rest, probs, sc⟩ x - q)
            sc.low sc.high 1000 := rfl

/-- Evaluation of the degenerate mixture's cdf: constantly 1. -/
lemma mixDegenerate_cdf (x : ℚ) : mixDegenerate.cdf x = 1 := by
  simp [mixDegenerate, Mixture.cdf, distOne]
  norm_num

/-- Evaluation of the degenerate mixture's initial ppf bracket: both
component ppfs are 0, so the widened bracket collapses to (0, 0). -/
lemma mixDegenerate_bracket (q : ℚ) : mixDegenerate.ppfBracket q = (0, 0) := by
  simp [mixDegenerate, Mixture.ppfBracket, distOne, listMin, listMax]

/-- Claim C1, counterexample: a two-component mixture on Scale(0, 1) whose
cdf(x) - q has no sign change over either bracket makes Mixture.ppf(1/2)
raise the bisection ValueError instead of returning the midpoint of the
original bracket. -/
theorem mixture_ppf_both_brackets_fail_raises :
    mixDegenerate.ppf (1/2) = .error signErrorMsg := by
  have he := mixture_ppf_two_eq distOne distOne [] [1/2, 1/2] ⟨0, 1⟩ (1/2)
  have hb : Mixture.ppfBracket ⟨[distOne, distOne], [1/2, 1/2], ⟨0, 1⟩⟩ (1/2) = (0, 0) :=
    mixDegenerate_bracket (1/2)
  have hc : ∀ x : ℚ, Mixture.cdf ⟨[distOne, distOne], [1/2, 1/2], ⟨0, 1⟩⟩ x = 1 :=
    mixDegenerate_cdf
  show Mixture.ppf ⟨[distOne, distOne], [1/2, 1/2], ⟨0, 1⟩⟩ (1/2) = .error signErrorMsg
  rw [he, hb]
  have hfail1 : bisect (fun x => Mixture.cdf ⟨[distOne, distOne], [1/2, 1/2], ⟨0, 1⟩⟩ x - 1/2)
      (0, (0 : ℚ)).1 (0, (0 : ℚ)).2 1000 = .error signErrorMsg := by
    unfold bisect
    rw [if_pos]
    simp only [hc]
    norm_num
  rw [hfail1]
  show bisect (fun x => Mixture.cdf ⟨[distOne, distOne], [1/2, 1/2], ⟨0, 1⟩⟩ x - 1/2)
    (0 : ℚ) (1 : ℚ) 1000 = .error signErrorMsg
  unfold bisect
  rw [if_pos]
  simp only [hc]
  norm_num

/-- Claim C1 (amended): for a mixture with at least two components, when the
initial bisection over the widened component-quantile bracket fails for lack
of a sign change, Mixture.ppf re-brackets with the scale's (low, high)
bounds and retries; if that bracket also has no sign change, the ValueError
propagates — there is no midpoint fallback and ppf can raise. -/
theorem mixture_ppf_fallback_chain (m : Mixture) (q : ℚ) (c1 c2 : Dist)
    (rest : List Dist) (hc : m.components = c1 :: c2 :: rest)
    (hA : 0 < (m.cdf (m.ppfBracket q).1 - q) * (m.cdf (m.ppfBracket q).2 - q)) :
    m.ppf q = bisect (fun x => m.cdf x - q) m.scale.low m.scale.high 1000 ∧
    (0 < (m.cdf m.scale.low - q) * (m.cdf m.scale.high - q) →
      m.ppf q = .error signErrorMsg) := by
  rcases m with ⟨comps, probs, sc⟩
  dsimp only at hc hA ⊢
  subst hc
  have he := mixture_ppf_two_eq c1 c2 rest probs sc q
  have hfail1 : bisect (fun x => Mixture.cdf ⟨c1 :: c2 :: rest, probs, sc⟩ x - q)
      (Mixture.ppfBracket ⟨c1 :: c2 :: rest, probs, sc⟩ q).1
      (Mixture.ppfBracket ⟨c1 :: c2 :: rest, probs, sc⟩ q).2 1000 =
      .error signErrorMsg := by
    unfold bisect
    exact if_pos hA
  constructor
  · rw [he, hfail1]
  · intro hB
    rw [he, hfail1]
    show bisect (fun x => Mixture.cdf ⟨c1 :: c2 :: rest, probs, sc⟩ x - q)
      sc.low sc.high 1000 = .error signErrorMsg
    unfold bisect
    exact if_pos hB

/-- Sign-change failure of the degenerate mixture's initial bracket. -/
lemma mixDegenerate_noSignChange :
    0 < (mixDegenerate.cdf (mixDegenerate.ppfBracket (1/2)).1 - 1/2) *
      (mixDegenerate.cdf (mixDegenerate.ppfBracket (1/2)).2 - 1/2) := by
  rw [mixDegenerate_bracket]
  simp only [mixDegenerate_cdf]
  norm_num

/-- Witness for mixture_ppf_fallback_chain at the concrete degenerate
mixture and q = 1/2. -/
theorem mixture_ppf_fallback_chain_witness :
    mixDegenerate.components = distOne :: distOne :: [] ∧
    (0 < (mixDegenerate.cdf (mixDegenerate.ppfBracket (1/2)).1 - 1/2) *
      (mixDegenerate.cdf (mixDegenerate.ppfBracket (1/2)).2 - 1/2)) ∧
    mixDegenerate.ppf (1/2) = bisect (fun x => mixDegenerate.cdf x - 1/2)
      mixDegenerate.scale.low mixDegenerate.scale.high 1000 :=
  ⟨rfl, mixDegenerate_noSignChange,
    (mixture_ppf_fallback_chain mixDegenerate (1/2) distOne distOne [] rfl
      mixDegenerate_noSignChange).1⟩

/-- Zipping a list with its own image collapses to a single map. -/
lemma zipWith_map_self {α β γ : Type} (f : α → β → γ) (g : α → β) (l : List α) :
    List.zipWith f l (l.map g) = l.map (fun a => f a (g a)) := by
  induction l with
  | nil => rfl
  | cons a t ih => simp [ih]

/-- The per-datum kernel rewritten without the intermediate logprobs list:
logsumexp over components of the floored-spread component log-density plus
the log of the component probability. -/
lemma logpdf1_eq_logsumexp (params : List ℝ) (x : ℝ) :
    logistic_mixture_logpdf1 params x =
      logsumexp ((chunk3 params).map
        (fun p => logistic_logpdf x p.1 (max p.2.1 0.01) + Real.log p.2.2)) := by
  unfold logistic_mixture_logpdf1
  dsimp only
  rw [zipWith_map_self
    (fun p w => logistic_logpdf x p.1 (max p.2.1 0.01) + w)
    (fun p => Real.log p.2.2) (chunk3 params)]

/-- Claim C2: for every flat parameter vector that reshapes into (n, 3) rows
(loc, s, prob) and every data vector, logistic_mixture_logpdf(params, data)
equals the sum over data points of the logsumexp over components of
logistic_logpdf(d, loc, max(s, 0.01)) + log(prob): the per-datum kernel
floors the spread at 0.01 and combines components by log-sum-exp, and the
batch kernel sums the per-datum values. -/
theorem logistic_mixture_logpdf_eq_spec (params data : List ℝ)
    (hp : params.length % 3 = 0) :
    logistic_mixture_logpdf params data = mixture_logpdf_spec params data := by
  unfold logistic_mixture_logpdf mixture_logpdf_spec
  by_cases hd : data.length = 1
  · rw [if_pos hd]
    obtain ⟨d, rfl⟩ := List.length_eq_one.mp hd
    simp [logpdf1_eq_logsumexp]
  · rw [if_neg hd]
    rw [show logistic_mixture_logpdf1 params =
        (fun d => logsumexp ((chunk3 params).map
          (fun p => logistic_logpdf d p.1 (max p.2.1 0.01) + Real.log p.2.2)))
      from funext (fun d => logpdf1_eq_logsumexp params d)]

/-- Witness for logistic_mixture_logpdf_eq_spec at the single-component
parameter vector (0, 1, 1) and the one-point dataset (0). -/
theorem logistic_mixture_logpdf_eq_spec_witness :
    ([(0 : ℝ), 1, 1].length % 3 = 0) ∧
    logistic_mixture_logpdf [0, 1, 1] [0] = mixture_logpdf_spec [0, 1, 1] [0] :=
  ⟨by decide, logistic_mixture_logpdf_eq_spec [0, 1, 1] [0] (by decide)⟩

/-- Claim C3: for every x, loc and s &gt; 0, logistic_logpdf(x, loc, s) equals
the closed-form location-scale log-density
-((x - loc) / s) - log(s) - 2 * log(1 + exp(-(x - loc) / s)). -/
theorem logistic_logpdf_closed_form (x loc s : ℝ) (hs : 0 < s) :
    logistic_logpdf x loc s =
      -((x - loc) / s) - Real.log s -
        2 * Real.log (1 + Real.exp (-((x - loc) / s))) := by
  have hy : ∀ y : ℝ, scipy_logistic_logpdf y =
      -y - 2 * Real.log (1 + Real.exp (-y)) := by
    intro y
    unfold scipy_logistic_logpdf
    rw [Real.log_div (Real.exp_ne_zero _) (by positivity), Real.log_exp,
      Real.log_pow]
    push_cast
    ring
  unfold logistic_logpdf
  rw [hy]
  ring

/-- Witness for logistic_logpdf_closed_form at x = 0, loc = 0, s = 1. -/
theorem logistic_logpdf_closed_form_witness :
    (0 : ℝ) < 1 ∧
    logistic_logpdf 0 0 1 =
      -((0 - 0) / 1) - Real.log 1 -
        2 * Real.log (1 + Real.exp (-((0 - 0) / 1))) :=
  ⟨one_pos, logistic_logpdf_closed_form 0 0 1 one_pos⟩

/-- Claim C4, counterexample: Mixture.logpdf raises NotImplementedError on a
concrete mixture and input instead of returning the log-sum-exp of the
component log-densities. -/
theorem mixture_logpdf_raises :
    mixSimple.logpdf (1/2) = .error notImplementedMsg := rfl

/-- Claim C4 (amended): Mixture.logpdf raises NotImplementedError for every
mixture and input; the log-sum-exp combination of component log-densities
with log-probabilities is provided by the flat-parameter kernel
logistic_mixture_logpdf1, which on rows (loc, s, prob) returns the logsumexp
over components of logistic_logpdf(x, loc, max(s, 0.01)) + log(prob). -/
theorem mixture_logpdf_logsumexp_kernel :
    (∀ (m : Mixture) (x : ℚ), m.logpdf x = .error notImplementedMsg) ∧
    ∀ (params : List ℝ) (x : ℝ),
      logistic_mixture_logpdf1 params x =
        logsumexp ((chunk3 params).map
          (fun p => logistic_logpdf x p.1 (max p.2.1 0.01) + Real.log p.2.2)) :=
  ⟨fun _ _ => rfl, fun params x => logpdf1_eq_logsumexp params x⟩

/-- Folding addition of a mapped value over a list equals the initial value
plus the sum of the mapped list. -/
lemma foldl_add_eq_sum {α : Type u} (f : α → ℚ) (l : List α) (init : ℚ) :
    l.foldl (fun acc c => acc + f c) init = init + (l.map f).sum := by
  induction l generalizing init with
  | nil => simp
  | cons a t ih => simp [ih, add_assoc]

/-- A constant factor distributes out of a mapped sum. -/
lemma sum_map_mul_const {α : Type u} (f : α → ℚ) (r : ℚ) (l : List α) :
    (l.map (fun a => f a * r)).sum = (l.map f).sum * r := by
  induction l with
  | nil => simp
  | cons a t ih => simp [ih, add_mul]

/-- Claim C5: the whole-sum path jitted_condition_loss and the per-condition
path condition_loss (the sum of single_condition_loss over the condition
list) return the same value, namely 100 times the sum over conditions of
condition.loss(dist) for the distribution structured from the flat
parameters. The hypothesis that from_params ignores its traceable flag is
spec-modelled: the distribution classmethods from_params live outside src/
and the spec describes from_params as a pure reshape-and-construct. -/
theorem condition_loss_paths_agree {D : Type} (fromParams : List ℚ → Bool → D)
    (dist_params : List ℚ) (conds : List (CondItem D))
    (ht : ∀ p, fromParams p true = fromParams p false) :
    jitted_condition_loss fromParams dist_params conds =
      total_condition_loss_spec fromParams dist_params conds ∧
    condition_loss fromParams dist_params conds =
      total_condition_loss_spec fromParams dist_params conds := by
  constructor
  · unfold jitted_condition_loss total_condition_loss_spec
    dsimp only
    rw [foldl_add_eq_sum]
    ring
  · unfold condition_loss total_condition_loss_spec
    rw [foldl_add_eq_sum (fun c => single_condition_loss fromParams dist_params c)
      conds 0, zero_add]
    unfold single_condition_loss
    simp only [ht]
    rw [sum_map_mul_const
      (fun c => c.loss (c.struct c.param) (fromParams dist_params false)) 100 conds]
    ring

/-- Witness for condition_loss_paths_agree at the concrete structurer fpC5,
flat distribution parameters (3) and the single condition condC5. -/
theorem condition_loss_paths_agree_witness :
    (∀ p, fpC5 p true = fpC5 p false) ∧
    (jitted_condition_loss fpC5 [3] [condC5] =
        total_condition_loss_spec fpC5 [3] [condC5] ∧
      condition_loss fpC5 [3] [condC5] =
        total_condition_loss_spec fpC5 [3] [condC5]) :=
  ⟨fun _ => rfl, condition_loss_paths_agree fpC5 [3] [condC5] (fun _ => rfl)⟩

/-- Claim C6, counterexample: Logistic(0, 0, Scale(0, 1)) built in true-scale
mode stores the floored normalized spread s = 1e-7 yet caches true_s = 0,
the raw input spread, so true_s differs from s * scale.width. -/
theorem logistic_true_s_unfloored :
    Logistic.init 0 0 (some ⟨0, 1⟩) false = .ok logC6 ∧
    logC6.true_s = some 0 ∧ logC6.s * logC6.scale.width = 1 / 10000000 ∧
    (0 : ℚ) ≠ 1 / 10000000 := by
  refine ⟨?_, rfl, ?_, by norm_num⟩
  · unfold Logistic.init
    simp [Scale.normalize_point, Scale.width, logisticEps, logC6, max_def]
  · show (1 / 10000000 : ℚ) * ((1 : ℚ) - 0) = 1 / 10000000
    norm_num

/-- Claim C6 (amended): under either construction mode the stored normalized
spread is strictly positive given scale.width &gt; 0; true_s = s * scale.width
holds in normalized mode when a Scale is supplied, and in true-scale mode
exactly when the supplied spread is at least epsilon = 1e-7 — in true-scale
mode true_s caches the raw input spread, and in normalized mode without a
Scale no true_s is cached at all. -/
theorem logistic_init_spread_invariants (loc s : ℚ) (sc : Scale)
    (hw : 0 < sc.width) :
    ∃ L1 L2 L3 : Logistic,
      Logistic.init loc s (some sc) true = .ok L1 ∧
      0 < L1.s ∧ L1.true_s = some (L1.s * L1.scale.width) ∧
      Logistic.init loc s none true = .ok L2 ∧ 0 < L2.s ∧ L2.true_s = none ∧
      Logistic.init loc s (some sc) false = .ok L3 ∧
      0 < L3.s ∧ L3.true_s = some s ∧
      (logisticEps ≤ s → L3.true_s = some (L3.s * L3.scale.width)) := by
  have heps : (0 : ℚ) < logisticEps := by norm_num [logisticEps]
  have hmax : (0 : ℚ) < max s logisticEps :=
    lt_of_lt_of_le heps (le_max_right _ _)
  refine ⟨⟨loc, max s logisticEps, sc, some (sc.denormalize_point loc),
      some (max s logisticEps * sc.width)⟩,
    ⟨loc, max s logisticEps, ⟨0, 1⟩, none, none⟩,
    ⟨sc.normalize_point loc, max s logisticEps / sc.width, sc, some loc, some s⟩,
    rfl, hmax, rfl, rfl, hmax, rfl, rfl, div_pos hmax hw, rfl, ?_⟩
  intro hle
  show some s = some (max s logisticEps / sc.width * sc.width)
  rw [max_eq_left hle, div_mul_cancel₀ s (ne_of_gt hw)]

/-- Witness for logistic_init_spread_invariants at loc = 0, s = 1 and
Scale(0, 1). -/
theorem logistic_init_spread_invariants_witness :
    (0 : ℚ) < (Scale.mk 0 1).width ∧
    ∃ L1 L2 L3 : Logistic,
      Logistic.init 0 1 (some ⟨0, 1⟩) true = .ok L1 ∧
      0 < L1.s ∧ L1.true_s = some (L1.s * L1.scale.width) ∧
      Logistic.init 0 1 none true = .ok L2 ∧ 0 < L2.s ∧ L2.true_s = none ∧
      Logistic.init 0 1 (some ⟨0, 1⟩) false = .ok L3 ∧
      0 < L3.s ∧ L3.true_s = some 1 ∧
      (logisticEps ≤ 1 → L3.true_s = some (L3.s * L3.scale.width)) :=
  ⟨by norm_num [Scale.width],
    logistic_init_spread_invariants 0 1 ⟨0, 1⟩ (by norm_num [Scale.width])⟩

/-- Claim C7: for CrossEntropyCondition and PartialCrossEntropyCondition,
structuring the flat parameter tuple returned by destructure yields a
condition whose loss on any fixed distribution equals the original's; for
PartialCrossEntropyCondition the round trip reproduces xs, ps and weight
exactly. The cross-entropy of the reference histogram is quantified over, as
any function of the histogram state the round trip transports, namely its
stored logps. -/
theorem condition_roundtrip_preserves_loss (ce : List ℚ → (ℚ → ℚ) → ℚ)
    (c : CrossEntropyCondition) (c' : PartialCrossEntropyCondition)
    (d : ℚ → ℚ) :
    CrossEntropyCondition.loss ce
      (CrossEntropyCondition.structure' c.destructure) d =
      CrossEntropyCondition.loss ce c d ∧
    PartialCrossEntropyCondition.structure' c'.destructure = c' ∧
    PartialCrossEntropyCondition.loss
      (PartialCrossEntropyCondition.structure' c'.destructure) d = c'.loss d :=
  ⟨rfl, rfl, rfl⟩

/-- Claim C8, counterexample: a component whose scale attribute is None is
accepted by Mixture construction even though its scale does not equal the
mixture's Scale(0, 1), so a Mixture whose components' scales do not all
equal the mixture's scale is successfully constructed. -/
theorem mixture_none_scale_component_accepted :
    mkMixture [distNoneScale] [1] ⟨0, 1⟩ =
      .ok ⟨[distNoneScale], [1], ⟨0, 1⟩⟩ ∧
    distNoneScale.scale ≠ some ⟨0, 1⟩ := by
  constructor
  · unfold mkMixture
    rw [if_pos]
    intro c hc
    rw [List.mem_singleton.mp hc]
    exact Or.inl rfl
  · simp [distNoneScale]

/-- Claim C8 (amended): Mixture construction raises exactly when some
component has a non-None scale different from the mixture's Scale;
components whose scale attribute is None are accepted unchecked. -/
theorem mkMixture_scale_check (components : List Dist) (probs : List ℚ)
    (sc : Scale) :
    (mkMixture components probs sc = .ok ⟨components, probs, sc⟩ ↔
      ∀ c ∈ components, c.scale = none ∨ c.scale = some sc) ∧
    ((¬ ∀ c ∈ components, c.scale = none ∨ c.scale = some sc) →
      mkMixture components probs sc = .error mixtureScaleMsg) := by
  unfold mkMixture
  by_cases h : ∀ c ∈ components, c.scale = none ∨ c.scale = some sc
  · rw [if_pos h]
    exact ⟨⟨fun _ => h, fun _ => rfl⟩, fun hn => absurd h hn⟩
  · rw [if_neg h]
    exact ⟨⟨fun he => Except.noConfusion he, fun hall => absurd hall h⟩,
      fun _ => rfl⟩

/-- Witness for mkMixture_scale_check at a component on Scale(2, 3) inside a
mixture on Scale(0, 1). -/
theorem mkMixture_scale_check_witness :
    (¬ ∀ c ∈ [distBadScale], c.scale = none ∨ c.scale = some ⟨0, 1⟩) ∧
    mkMixture [distBadScale] [1] ⟨0, 1⟩ = .error mixtureScaleMsg := by
  have hn : ¬ ∀ c ∈ [distBadScale], c.scale = none ∨ c.scale = some ⟨0, 1⟩ := by
    intro hall
    rcases hall distBadScale (List.mem_singleton.mpr rfl) with h | h
    · exact Option.noConfusion (show (some (⟨2, 3⟩ : Scale) : Option Scale) = none from h)
    · have : (⟨2, 3⟩ : Scale) = ⟨0, 1⟩ :=
        Option.some.inj (show (some (⟨2, 3⟩ : Scale) : Option Scale) = some ⟨0, 1⟩ from h)
      have h2 : (2 : ℚ) = 0 := congrArg Scale.low this
      norm_num at h2
  exact ⟨hn, (mkMixture_scale_check [distBadScale] [1] ⟨0, 1⟩).2 hn⟩

/-- Claim C9: constructing a Logistic raises ValueError when neither a Scale
is supplied nor the normalized flag is set; with the normalized flag and no
Scale, construction succeeds and the scale defaults to Scale(0, 1). -/
theorem logistic_init_scale_requirement (loc s : ℚ) :
    Logistic.init loc s none false = .error scaleRequiredMsg ∧
    ∃ L, Logistic.init loc s none true = .ok L ∧ L.scale = ⟨0, 1⟩ :=
  ⟨rfl, ⟨loc, max s logisticEps, ⟨0, 1⟩, none, none⟩, rfl, rfl⟩

/-- Claim C10: TruncatedLogisticMixture.pdf1 returns 0 strictly outside the
truncation bounds and otherwise the untruncated mixture density at x
rescaled by 1 / p_inside, where p_inside = 1 - (cdf(floor) +
(1 - cdf(ceiling))) is computed from the untruncated mixture's cdf at the
truncation bounds. -/
theorem truncated_pdf1_cases (m : TruncatedLogisticMixture) (x : ℚ) :
    ((x < m.floor ∨ m.ceiling < x) → m.pdf1 x = 0) ∧
    (m.floor ≤ x → x ≤ m.ceiling →
      m.pdf1 x = m.basePdf1 x *
        (1 / (1 - (m.baseCdf m.floor + (1 - m.baseCdf m.ceiling))))) := by
  unfold TruncatedLogisticMixture.pdf1
  constructor
  · rintro (h | h)
    · rw [if_pos h]
    · by_cases hf : x < m.floor
      · rw [if_pos hf]
      · rw [if_neg hf, if_pos h]
  · intro h1 h2
    rw [if_neg (not_lt.mpr h1), if_neg (not_lt.mpr h2)]

/-- Witness for truncated_pdf1_cases at the concrete truncated mixture and
the interior point 1/2. -/
theorem truncated_pdf1_cases_witness :
    (truncC10.floor ≤ 1/2 ∧ (1/2 : ℚ) ≤ truncC10.ceiling) ∧
    truncC10.pdf1 (1/2) = truncC10.basePdf1 (1/2) *
      (1 / (1 - (truncC10.baseCdf truncC10.floor +
        (1 - truncC10.baseCdf truncC10.ceiling)))) :=
  ⟨⟨by norm_num [truncC10], by norm_num [truncC10]⟩,
    (truncated_pdf1_cases truncC10 (1/2)).2 (by norm_num [truncC10])
      (by norm_num [truncC10])⟩

end Ergo
